import Mathlib

set_option maxRecDepth 8192

/-!
Verification of the uml-diagram web application (TypeScript sources) against
its natural-language specification.

The development shallowly embeds the data model (`Entity`, `Attribute`,
`Method`, `Parameter`, `Relationship` from src/services/api.ts) and the pure
logic of the editor (EntityRelationshipEditor), the mock data services
(src/services/mockData.ts), the submission flow of UMLGenerator.tsx and the
HTTP client endpoint tables, and proves or refutes the frozen claims about
them.  JavaScript strings are modelled as Lean `String` (character lists);
regular-expression splits, `includes`, `trim`, `toUpperCase`, `toLowerCase`
are modelled by explicit character-level functions; `Date.now()` and
`new Date().toISOString()` are supplied as explicit parameters.
-/

/-! ### Character and string primitives modelling the JavaScript operations -/

/-- Whitespace characters matched by the JavaScript regexp escape backslash-s
and removed by `String.prototype.trim` (ASCII part). -/
def isWsChar (c : Char) : Bool :=
  c == ' ' || c == '\t' || c == '\n' || c == '\r' || c == '\x0b' || c == '\x0c'

/-- Characters of the separator character class `[.,;:\s]` used by
`mockProcessSpecsResponse` to split the description into words. -/
def isSepChar (c : Char) : Bool :=
  c == '.' || c == ',' || c == ';' || c == ':' || isWsChar c

/-- `String.prototype.split` on a single-character class: splits at every
separator character, keeping empty fragments (as JavaScript does). -/
def splitFields (p : Char → Bool) : List Char → List Char → List (List Char)
  | [], acc => [acc.reverse]
  | c :: cs, acc =>
    if p c then acc.reverse :: splitFields p cs [] else splitFields p cs (c :: acc)

/-- Split a string on the `[.,;:\s]` character class, as `description.split(/[.,;:\s]/)`. -/
def splitWords (s : String) : List String :=
  (splitFields isSepChar s.toList []).map String.mk

/-- Split a string into maximal runs of non-whitespace characters, as
`description.split(/\s+/)` (empty fragments are irrelevant here because every
caller filters by length afterwards). -/
def splitWsRuns (s : String) : List String :=
  ((splitFields isWsChar s.toList []).map String.mk).filter (fun w => w ≠ "")

/-- JavaScript `toLowerCase` (ASCII part), applied characterwise. -/
def toLowerStr (s : String) : String := String.mk (s.toList.map Char.toLower)

/-- Boolean test that `pat` occurs at the start of `l`. -/
def prefList : List Char → List Char → Bool
  | [], _ => true
  | _ :: _, [] => false
  | a :: as, b :: bs => a == b && prefList as bs

/-- Boolean test that `pat` occurs contiguously somewhere in `l`. -/
def infList (pat : List Char) : List Char → Bool
  | [] => prefList pat []
  | b :: bs => prefList pat (b :: bs) || infList pat bs

/-- JavaScript `s.includes(pat)`. -/
def strIncludes (s pat : String) : Bool := infList pat.toList s.toList

/-- True when the string is empty or all whitespace, i.e. when the JavaScript
test `!s.trim()` succeeds. -/
def isBlank (s : String) : Bool := s.toList.all isWsChar

/-- JavaScript deduplication idiom `filter((v, i, a) => a.indexOf(v) === i)`:
keep the first occurrence of each element. -/
def dedupFirst (seen : List String) : List String → List String
  | [] => []
  | x :: xs =>
    if seen.contains x then dedupFirst seen xs else x :: dedupFirst (x :: seen) xs

/-- `word.charAt(0).toUpperCase() + word.slice(1)`. -/
def capFirst (w : String) : String :=
  match w.toList with
  | [] => ""
  | c :: cs => String.mk (Char.toUpper c :: cs)

/-- Flat concatenation of the rendering of each list element (used to state
the template-concatenation claims about the Mermaid generators). -/
def concatMap (f : α → String) : List α → String
  | [] => ""
  | x :: xs => f x ++ concatMap f xs

/-! ### Data model (src/services/api.ts interfaces) -/

/-- The union type of the visibility strings: public, private, protected. -/
inductive Visibility where
  | pub : Visibility
  | priv : Visibility
  | prot : Visibility
deriving DecidableEq, Repr

/-- Interface `Parameter`. -/
structure Parameter where
  name : String
  type : String
deriving DecidableEq, Repr

/-- Interface `Attribute`. -/
structure Attribute where
  name : String
  type : String
  visibility : Visibility
deriving DecidableEq, Repr

/-- Interface `Method`. -/
structure Method where
  name : String
  returnType : String
  parameters : List Parameter
  visibility : Visibility
deriving DecidableEq, Repr

/-- Interface `Entity`. -/
structure Entity where
  name : String
  attributes : List Attribute
  methods : List Method
deriving DecidableEq, Repr

/-- The union type of the relationship type strings: inheritance,
composition, aggregation, association, dependency. -/
inductive RelType where
  | inheritance : RelType
  | composition : RelType
  | aggregation : RelType
  | association : RelType
  | dependency : RelType
deriving DecidableEq, Repr

/-- Interface `Relationship`; the optional `label?` field is an `Option`,
where `none` models an absent field. -/
structure Relationship where
  source : String
  target : String
  type : RelType
  label : Option String
deriving DecidableEq, Repr

/-- Interface `ProcessSpecsResponse`. -/
structure ProcessSpecsResponse where
  enhancedDescription : String
  entities : List Entity
  relationships : List Relationship
deriving DecidableEq, Repr

/-- Interface `GenerateUMLRequest` (the `userId` field plays no role in the
generation logic and is omitted from the embedding). -/
structure GenerateUMLRequest where
  entities : List Entity
  relationships : List Relationship
deriving DecidableEq, Repr

/-- Interface `UMLDiagram`; the field `umlText` embeds the source field named
umlSyntax. -/
structure UMLDiagram where
  id : String
  title : String
  description : String
  umlText : String
  entities : List Entity
  relationships : List Relationship
  createdAt : String
deriving DecidableEq, Repr

/-- Interface `SaveUMLRequest`; the field `umlText` embeds the source field
named umlSyntax. -/
structure SaveUMLRequest where
  title : String
  description : String
  umlText : String
  entities : List Entity
  relationships : List Relationship
deriving DecidableEq, Repr

/-- Interface `SaveUMLResponse`. -/
structure SaveUMLResponse where
  id : String
  success : Bool
deriving DecidableEq, Repr

/-- Name of the entity at position `i`, defaulting to the empty string
(the TypeScript code only reads indices it has checked to exist). -/
def nameAt (es : List Entity) (i : Nat) : String :=
  ((es.get? i).map Entity.name).getD ""

/-! ### Entity/relationship editor (EntityRelationshipEditor.tsx, both variants) -/

/-- `handleDeleteEntity` of EntityRelationshipEditor: remove the entity at
`idx` (`splice(index, 1)` / `filter((_, i) => i !== index)`) and filter out
every relationship whose source or target equals the name of the deleted
entity. -/
def handleDeleteEntity (entities : List Entity) (rels : List Relationship)
    (idx : Nat) : List Entity × List Relationship :=
  let deletedName := nameAt entities idx
  (entities.eraseIdx idx,
   rels.filter (fun r => r.source != deletedName && r.target != deletedName))

/-- The relationship-renaming pass of `handleAddEntity` in the unnamed
EntityRelationshipEditor variant (src/unnamed/part_006, lines 223-231): for
each relationship, if its source equals the old name the source is replaced
and the relationship is returned at once; otherwise, if its target equals the
old name, the target is replaced; otherwise it is unchanged. -/
def renameInRels (oldName newName : String) (rels : List Relationship) :
    List Relationship :=
  rels.map (fun r =>
    if r.source == oldName then { r with source := newName }
    else if r.target == oldName then { r with target := newName }
    else r)

/-- `handleAddEntity` of src/unnamed/part_006 in its editing branch
(`editingEntityIndex !== null`): overwrite the entity at `idx` with the newly
assembled entity, and when the name changed, run the renaming pass over the
relationships. -/
def handleAddEntitySave (entities : List Entity) (rels : List Relationship)
    (idx : Nat) (e : Entity) : List Entity × List Relationship :=
  let updated := entities.set idx e
  let oldName := nameAt entities idx
  if oldName ≠ e.name then (updated, renameInRels oldName e.name rels)
  else (updated, rels)

/-- C1: deleting the entity at a valid index removes exactly that entity
(the prefix before it and the suffix after it are unchanged), removes exactly
the relationships whose source or target equals the name of the deleted
entity,
`nameAt es i` (every other relationship survives, in order), and afterwards no
remaining relationship references the deleted name. -/
theorem handleDeleteEntity_cascades (es : List Entity) (rs : List Relationship)
    (i : Nat) (h : i < es.length) :
    (handleDeleteEntity es rs i).1 = es.take i ++ es.drop (i + 1) ∧
    (handleDeleteEntity es rs i).2 =
      rs.filter (fun r => r.source != nameAt es i && r.target != nameAt es i) ∧
    (∀ r ∈ (handleDeleteEntity es rs i).2,
      r.source ≠ nameAt es i ∧ r.target ≠ nameAt es i) ∧
    (∀ r ∈ rs, r.source ≠ nameAt es i → r.target ≠ nameAt es i →
      r ∈ (handleDeleteEntity es rs i).2) := by
  refine ⟨?_, rfl, ?_, ?_⟩
  · simp [handleDeleteEntity, List.eraseIdx_eq_take_drop_succ]
  · intro r hr
    simp only [handleDeleteEntity, List.mem_filter, Bool.and_eq_true,
      bne_iff_ne, ne_eq] at hr
    exact ⟨hr.2.1, hr.2.2⟩
  · intro r hr h1 h2
    simp only [handleDeleteEntity, List.mem_filter, Bool.and_eq_true,
      bne_iff_ne, ne_eq]
    exact ⟨hr, h1, h2⟩

/-- Witness for `handleDeleteEntity_cascades` at a concrete input: two
entities A, B with a relationship between them and a self-relationship on B;
deleting A at index 0 removes A and the A-B relationship only. -/
theorem handleDeleteEntity_cascades_witness :
    (0 : Nat) < ([⟨"A", [], []⟩, ⟨"B", [], []⟩] : List Entity).length ∧
    ((handleDeleteEntity [⟨"A", [], []⟩, ⟨"B", [], []⟩]
        [⟨"A", "B", .association, none⟩, ⟨"B", "B", .dependency, none⟩] 0).1 =
          [⟨"B", [], []⟩] ∧
     (handleDeleteEntity [⟨"A", [], []⟩, ⟨"B", [], []⟩]
        [⟨"A", "B", .association, none⟩, ⟨"B", "B", .dependency, none⟩] 0).2 =
          [⟨"B", "B", .dependency, none⟩]) := by
  have h : (0 : Nat) < ([⟨"A", [], []⟩, ⟨"B", [], []⟩] : List Entity).length := by decide
  have hc := handleDeleteEntity_cascades [⟨"A", [], []⟩, ⟨"B", [], []⟩]
    [⟨"A", "B", .association, none⟩, ⟨"B", "B", .dependency, none⟩] 0 h
  have h1 : ([⟨"A", [], []⟩, ⟨"B", [], []⟩] : List Entity).take 0 ++
      ([⟨"A", [], []⟩, ⟨"B", [], []⟩] : List Entity).drop 1 = [⟨"B", [], []⟩] := by decide
  have h2 : ([⟨"A", "B", .association, none⟩, ⟨"B", "B", .dependency, none⟩] :
        List Relationship).filter (fun r =>
          r.source != nameAt [⟨"A", [], []⟩, ⟨"B", [], []⟩] 0 &&
          r.target != nameAt [⟨"A", [], []⟩, ⟨"B", [], []⟩] 0) =
      [⟨"B", "B", .dependency, none⟩] := by decide
  exact ⟨h, hc.1.trans h1, hc.2.1.trans h2⟩

/-- The renaming pass the claim describes: each endpoint (source and target
independently) that equals the old name is replaced by the new name. -/
def claimRenameInRels (oldName newName : String) (rels : List Relationship) :
    List Relationship :=
  rels.map (fun r =>
    { r with
      source := if r.source == oldName then newName else r.source,
      target := if r.target == oldName then newName else r.target })

/-- C2 counterexample: saving the entity "A" under the new name "B" while a
self-relationship A-to-A exists updates only the source endpoint: the code
returns the relationship B-to-A, while the claim demands B-to-B, so the
claimed cascade differs from the implemented one. -/
theorem handleAddEntitySave_selfRel_counterexample :
    (handleAddEntitySave [⟨"A", [], []⟩] [⟨"A", "A", .association, none⟩] 0
        ⟨"B", [], []⟩).2 = [⟨"B", "A", .association, none⟩] ∧
    claimRenameInRels "A" "B" [⟨"A", "A", .association, none⟩] =
      [⟨"B", "B", .association, none⟩] ∧
    (handleAddEntitySave [⟨"A", [], []⟩] [⟨"A", "A", .association, none⟩] 0
        ⟨"B", [], []⟩).2 ≠
      claimRenameInRels "A" "B" [⟨"A", "A", .association, none⟩] := by
  refine ⟨by decide, by decide, by decide⟩

/-- C2 amended: when the entity at a valid editing index is saved under a new
name, the entity list gets the new entity at that index, and each relationship
is rewritten by a first-match rule: if its source equals the old name only the
source is replaced (the target stays, even in a self-relationship); otherwise
if its target equals the old name the target is replaced; relationships not
referencing the old name are unchanged and survive. -/
theorem handleAddEntitySave_renames (es : List Entity) (rs : List Relationship)
    (idx : Nat) (e : Entity) (h : idx < es.length) (hne : nameAt es idx ≠ e.name) :
    (handleAddEntitySave es rs idx e).1 = es.set idx e ∧
    (handleAddEntitySave es rs idx e).2 = rs.map (fun r =>
      if r.source = nameAt es idx then { r with source := e.name }
      else if r.target = nameAt es idx then { r with target := e.name }
      else r) ∧
    (∀ r ∈ rs, r.source ≠ nameAt es idx → r.target ≠ nameAt es idx →
      r ∈ (handleAddEntitySave es rs idx e).2) := by
  have hout : handleAddEntitySave es rs idx e =
      (es.set idx e, renameInRels (nameAt es idx) e.name rs) := by
    simp [handleAddEntitySave, hne]
  refine ⟨by rw [hout], ?_, ?_⟩
  · rw [hout]
    simp only [renameInRels]
    exact List.map_congr_left (fun r _ => by
      by_cases hs : r.source = nameAt es idx <;>
        by_cases ht : r.target = nameAt es idx <;>
          simp [hs, ht])
  · intro r hr h1 h2
    rw [hout]
    simp only [renameInRels]
    have : (if r.source == nameAt es idx then { r with source := e.name }
        else if r.target == nameAt es idx then { r with target := e.name }
        else r) = r := by
      simp [h1, h2]
    exact this ▸ List.mem_map_of_mem _ hr

/-- Witness for `handleAddEntitySave_renames`: renaming "A" to "B" at index 0
with one A-to-C relationship and one unrelated C-to-D relationship. -/
theorem handleAddEntitySave_renames_witness :
    (0 : Nat) < ([⟨"A", [], []⟩, ⟨"C", [], []⟩] : List Entity).length ∧
    nameAt [⟨"A", [], []⟩, ⟨"C", [], []⟩] 0 ≠ (⟨"B", [], []⟩ : Entity).name ∧
    ((handleAddEntitySave [⟨"A", [], []⟩, ⟨"C", [], []⟩]
        [⟨"A", "C", .dependency, none⟩, ⟨"C", "D", .association, none⟩] 0
        ⟨"B", [], []⟩).1 = [⟨"B", [], []⟩, ⟨"C", [], []⟩] ∧
      (handleAddEntitySave [⟨"A", [], []⟩, ⟨"C", [], []⟩]
        [⟨"A", "C", .dependency, none⟩, ⟨"C", "D", .association, none⟩] 0
        ⟨"B", [], []⟩).2 =
          [⟨"B", "C", .dependency, none⟩, ⟨"C", "D", .association, none⟩]) := by
  have h : (0 : Nat) < ([⟨"A", [], []⟩, ⟨"C", [], []⟩] : List Entity).length := by decide
  have hne : nameAt [⟨"A", [], []⟩, ⟨"C", [], []⟩] 0 ≠ (⟨"B", [], []⟩ : Entity).name := by
    decide
  have hr := handleAddEntitySave_renames [⟨"A", [], []⟩, ⟨"C", [], []⟩]
    [⟨"A", "C", .dependency, none⟩, ⟨"C", "D", .association, none⟩] 0
    ⟨"B", [], []⟩ h hne
  refine ⟨h, hne, hr.1.trans (by decide), hr.2.1.trans (by decide)⟩

/-! ### Mermaid generation (mockGenerateUMLResponse, src/services/mockData.ts) -/

/-- Visibility symbol used by the generators: the ternary chain mapping
private to a minus sign, protected to a hash sign, everything else to a plus
sign. -/
def visSymbol : Visibility → String
  | .priv => "-"
  | .prot => "#"
  | .pub => "+"

/-- JavaScript truthiness of the optional label: an absent label and the empty
string are both falsy, so no label text is emitted for them. -/
def labelSuffix (label : Option String) : String :=
  match label with
  | some l => if l = "" then "" else " : " ++ l
  | none => ""

/-- One attribute line of `mockGenerateUMLResponse`. -/
def attrLine (a : Attribute) : String :=
  "    " ++ visSymbol a.visibility ++ a.name ++ " : " ++ a.type ++ "\n"

/-- The parameter list rendering: each parameter as name, colon, space,
type, joined with comma and space. -/
def paramListStr (ps : List Parameter) : String :=
  String.intercalate ", " (ps.map (fun p => p.name ++ ": " ++ p.type))

/-- One method line of `mockGenerateUMLResponse`. -/
def methodLine (m : Method) : String :=
  "    " ++ visSymbol m.visibility ++ m.name ++ "(" ++ paramListStr m.parameters ++
    ") " ++ m.returnType ++ "\n"

/-- The class block emitted for one entity by `mockGenerateUMLResponse`:
header, one line per attribute, one line per method, closing line, built by
successive string appends as in the source. -/
def entityBlock (e : Entity) : String :=
  let afterHeader := "  class " ++ e.name ++ " \x7b\n"
  let afterAttrs := e.attributes.foldl (fun acc a => acc ++ attrLine a) afterHeader
  let afterMethods := e.methods.foldl (fun acc m => acc ++ methodLine m) afterAttrs
  afterMethods ++ "  \x7d\n"

/-- Relationship arrow of `mockGenerateUMLResponse` (the `switch` statement;
`association` shares the `default` branch). -/
def relSymbol : RelType → String
  | .inheritance => "--|>"
  | .composition => "--*"
  | .aggregation => "--o"
  | .dependency => "..>"
  | .association => "-->"

/-- One relationship line of `mockGenerateUMLResponse`. -/
def relLine (r : Relationship) : String :=
  "  " ++ r.source ++ " " ++ relSymbol r.type ++ " " ++ r.target ++
    labelSuffix r.label ++ "\n"

/-- `mockGenerateUMLResponse` of src/services/mockData.ts: accumulate the
class blocks then the relationship lines onto the fixed header. -/
def mockGenerateUMLResponse (req : GenerateUMLRequest) : String :=
  let s0 := "classDiagram\n"
  let s1 := req.entities.foldl (fun acc e => acc ++ entityBlock e) s0
  req.relationships.foldl (fun acc r => acc ++ relLine r) s1

/-- Appending-fold of rendered elements equals the accumulator followed by the
flat concatenation of the renderings. -/
theorem foldl_append_eq_concatMap (f : α → String) (l : List α) (acc : String) :
    l.foldl (fun a x => a ++ f x) acc = acc ++ concatMap f l := by
  induction l generalizing acc with
  | nil => simp [concatMap, String.append_empty]
  | cons x xs ih =>
    simp only [List.foldl_cons, concatMap, ih (acc ++ f x), String.append_assoc]

/-- The class block the claim describes: header `class NAME`, each attribute
rendered as the visibility symbol (private to `-`, protected to `#`, public to
`+`) followed by `name : type`, each method as the symbol, the name, the
parameters joined `name: type` with `, `, and the return type, then the
closing line. -/
def claimEntityBlock (e : Entity) : String :=
  "  class " ++ e.name ++ " \x7b\n" ++
    concatMap attrLine e.attributes ++
    concatMap methodLine e.methods ++
    "  \x7d\n"

/-- C3: for every request, the generated Mermaid text is pure template
concatenation: the header `classDiagram`, then one class block per entity in
input order, then one line `source SYMBOL target` per relationship in input
order, with the arrow determined by the relationship type and ` : label`
appended exactly when the relationship has a (truthy, i.e. present and
non-empty) label. -/
theorem mockGenerateUMLResponse_is_template (req : GenerateUMLRequest) :
    mockGenerateUMLResponse req =
      "classDiagram\n" ++ concatMap claimEntityBlock req.entities ++
        concatMap relLine req.relationships := by
  have hblock : ∀ e : Entity, entityBlock e = claimEntityBlock e := by
    intro e
    simp only [entityBlock, claimEntityBlock, foldl_append_eq_concatMap,
      String.append_assoc]
  have hconcat : concatMap entityBlock req.entities =
      concatMap claimEntityBlock req.entities := by
    induction req.entities with
    | nil => rfl
    | cons e es ih => simp only [concatMap, hblock, ih]
  simp only [mockGenerateUMLResponse, foldl_append_eq_concatMap, hconcat,
    String.append_assoc]

/-! ### Heuristic extraction (mockProcessSpecsResponse, src/services/mockData.ts) -/

/-- Stage 1 of the class-name cascade: split on `[.,;:\s]`, keep words longer
than 3 characters, keep words whose first character is unchanged by
`toUpperCase` (the test `word[0] === word[0].toUpperCase()`), deduplicate
keeping first occurrences. -/
def stage1Names (d : String) : List String :=
  dedupFirst []
    (((splitWords d).filter (fun w => 3 < w.length)).filter (fun w =>
      match w.toList with
      | c :: _ => c == Char.toUpper c
      | [] => true))

/-- The stop-word list `commonWords` of stage 2. -/
def commonWords : List String :=
  ["the", "and", "a", "an", "with", "for", "to", "in", "on", "at", "by", "of"]

/-- Stage 2: split again, keep words longer than 3 characters that are not
stop words (compared lowercased), capitalize the first letter, deduplicate,
keep at most 6. -/
def stage2Names (d : String) : List String :=
  (dedupFirst []
    ((((splitWords d).filter (fun w => 3 < w.length)).filter (fun w =>
        !(commonWords.contains (toLowerStr w)))).map capFirst)).take 6

/-- Stage 3: the domain dictionary, keyed by the first of the six keywords
(in object insertion order) contained case-insensitively in the description,
with a fixed general fallback. -/
def stage3Names (d : String) : List String :=
  let lower := toLowerStr d
  if strIncludes lower "shop" then ["Product", "Customer", "Order", "ShoppingCart"]
  else if strIncludes lower "education" then ["Student", "Course", "Professor", "Assignment"]
  else if strIncludes lower "hospital" then ["Patient", "Doctor", "Appointment", "Treatment"]
  else if strIncludes lower "bank" then ["Account", "Customer", "Transaction", "Loan"]
  else if strIncludes lower "library" then ["Book", "Member", "Librarian", "Borrowing"]
  else if strIncludes lower "flight" then ["Flight", "Passenger", "Booking", "Ticket"]
  else ["User", "System", "Data", "Manager"]

/-- The full three-stage cascade of `mockProcessSpecsResponse`: each later
stage replaces the result only when the previous one produced fewer than two
names. -/
def extractedClassNames (d : String) : List String :=
  let s1 := stage1Names d
  if 2 ≤ s1.length then s1
  else
    let s2 := stage2Names d
    if 2 ≤ s2.length then s2
    else stage3Names d

/-- The attribute list generated for a class named `n`: always `id` and the
lowercased-name `...Name` attribute, plus keyword-triggered extras. -/
def entityAttributes (lower : String) (n : String) : List Attribute :=
  [⟨"id", "string", .priv⟩, ⟨toLowerStr n ++ "Name", "string", .priv⟩] ++
  (if strIncludes lower "date" || strIncludes lower "time" then
    [⟨"createdAt", "Date", .priv⟩] else []) ++
  (if strIncludes lower "price" || strIncludes lower "cost" then
    [⟨"price", "number", .priv⟩] else []) ++
  (if strIncludes lower "status" || strIncludes lower "state" then
    [⟨"status", "string", .priv⟩] else [])

/-- The method list generated for a class named `n`: always a getter, plus
keyword-triggered CRUD methods. -/
def entityMethods (lower : String) (n : String) : List Method :=
  [⟨"get" ++ n, n, [], .pub⟩] ++
  (if strIncludes lower "update" || strIncludes lower "edit" then
    [⟨"update" ++ n, "boolean", [⟨"data", n⟩], .pub⟩] else []) ++
  (if strIncludes lower "delete" || strIncludes lower "remove" then
    [⟨"delete" ++ n, "void", [⟨"id", "string"⟩], .pub⟩] else []) ++
  (if strIncludes lower "validate" || strIncludes lower "check" then
    [⟨"validate", "boolean", [], .pub⟩] else [])

/-- The entity built for one extracted class name. -/
def mkEntity (lower : String) (n : String) : Entity :=
  ⟨n, entityAttributes lower n, entityMethods lower n⟩

/-- The relationship list of `mockProcessSpecsResponse`, driven by the entity
count and the keyword flags. -/
def mkRelationships (lower : String) (entities : List Entity) : List Relationship :=
  let hasAssoc := strIncludes lower "has" || strIncludes lower "with" ||
    strIncludes lower "contains"
  let hasInher := strIncludes lower "inherits" || strIncludes lower "extends" ||
    strIncludes lower "type of"
  let hasDep := strIncludes lower "uses" || strIncludes lower "depends" ||
    strIncludes lower "requires"
  let hasAggr := strIncludes lower "consists" || strIncludes lower "comprises" ||
    strIncludes lower "composed"
  if 2 ≤ entities.length then
    [⟨nameAt entities 0, nameAt entities 1,
      if hasAssoc then .association else if hasDep then .dependency else .association,
      none⟩] ++
    (if 3 ≤ entities.length then
      [⟨nameAt entities 0, nameAt entities 2,
        if hasAggr then .aggregation else .dependency,
        some (if hasAggr then "contains" else "uses")⟩] else []) ++
    (if 4 ≤ entities.length && hasInher then
      [⟨nameAt entities 3, nameAt entities 1, .inheritance, none⟩]
     else if 4 ≤ entities.length then
      [⟨nameAt entities 2, nameAt entities 3, .association, some "relates to"⟩]
     else []) ++
    (if 5 ≤ entities.length then
      [⟨nameAt entities 4, nameAt entities 0, .composition, some "part of"⟩] else [])
  else []

/-- Text of one relationship in the enhanced description. -/
def relText (r : Relationship) : String :=
  (match r.type with
   | .association => r.source ++ " is associated with " ++ r.target
   | .inheritance => r.source ++ " inherits from " ++ r.target
   | .composition => r.source ++ " is composed of " ++ r.target
   | .aggregation => r.source ++ " contains " ++ r.target
   | .dependency => r.source ++ " depends on " ++ r.target) ++
  (match r.label with
   | some l => if l = "" then "" else " (" ++ l ++ ")"
   | none => "") ++ ".\n"

/-- The enhanced description assembled by `mockProcessSpecsResponse`. -/
def enhancedDescriptionOf (entities : List Entity) (rels : List Relationship) :
    String :=
  let base := "\nSystem Description:\n\nThis system comprises " ++
    toString entities.length ++ " main entities: " ++
    String.intercalate ", " (entities.map Entity.name) ++ ".\n\n"
  let withEnts := entities.foldl (fun acc e =>
    acc ++ e.name ++ ": Contains " ++ toString e.attributes.length ++
      " attributes and " ++ toString e.methods.length ++
      " methods for data management.\n") base
  let withRels := rels.foldl (fun acc r => acc ++ relText r)
    (withEnts ++ "\nRelationships:\n")
  withRels ++
    "\nThis model represents a simplified interpretation of the system based on the input description."

/-- `mockProcessSpecsResponse` of src/services/mockData.ts. -/
def mockProcessSpecsResponse (d : String) : ProcessSpecsResponse :=
  let lower := toLowerStr d
  let entities := (extractedClassNames d).map (mkEntity lower)
  let rels := mkRelationships lower entities
  ⟨enhancedDescriptionOf entities rels, entities, rels⟩

/-- `checkUMLValidity` of UMLGenerator.tsx (lines 29-37): at least two
entities, every entity with at least one attribute and one method, and at
least one relationship. -/
def checkUMLValidity (specs : ProcessSpecsResponse) : Bool :=
  decide (2 ≤ specs.entities.length) &&
  specs.entities.all (fun e =>
    decide (0 < e.attributes.length) && decide (0 < e.methods.length)) &&
  decide (1 ≤ specs.relationships.length)

/-- The stronger minimum-validity property C10 claims of every mock response:
at least two entities; every entity has at least two attributes, among them
`id` and the lowercased-name `...Name` attribute, and at least one method,
among them the `get` getter; and the first relationship connects the first
two entities. -/
def claimMinValidity (specs : ProcessSpecsResponse) : Bool :=
  decide (2 ≤ specs.entities.length) &&
  specs.entities.all (fun e =>
    decide (2 ≤ e.attributes.length) &&
    e.attributes.any (fun a => a.name == "id") &&
    e.attributes.any (fun a => a.name == toLowerStr e.name ++ "Name") &&
    decide (1 ≤ e.methods.length) &&
    e.methods.any (fun m => m.name == "get" ++ e.name)) &&
  (match specs.relationships, specs.entities with
   | r :: _, e0 :: e1 :: _ => r.source == e0.name && r.target == e1.name
   | _, _ => false)

/-- Stage 3 always returns one of the seven fixed four-element lists. -/
theorem stage3Names_length (d : String) : (stage3Names d).length = 4 := by
  simp only [stage3Names]
  split_ifs <;> rfl

/-- The cascade always produces at least two class names. -/
theorem extractedClassNames_two_le (d : String) :
    2 ≤ (extractedClassNames d).length := by
  simp only [extractedClassNames]
  split_ifs with h1 h2
  · exact h1
  · exact h2
  · rw [stage3Names_length]
    omega

/-- With at least two entities, the relationship list starts with a
relationship from the first entity to the second. -/
theorem mkRelationships_head (lower : String) (e0 e1 : Entity) (tl : List Entity) :
    ∃ r rest, mkRelationships lower (e0 :: e1 :: tl) = r :: rest ∧
      r.source = e0.name ∧ r.target = e1.name := by
  simp only [mkRelationships]
  rw [if_pos (by simp)]
  rw [List.append_assoc, List.append_assoc, List.singleton_append]
  exact ⟨_, _, rfl, rfl, rfl⟩

/-- C10: for every description, the mock model satisfies both
`checkUMLValidity` and the stronger claimed minimum-validity property. -/
theorem mockProcessSpecsResponse_satisfies_validity (d : String) :
    checkUMLValidity (mockProcessSpecsResponse d) = true ∧
    claimMinValidity (mockProcessSpecsResponse d) = true := by
  have hents : (mockProcessSpecsResponse d).entities =
      (extractedClassNames d).map (mkEntity (toLowerStr d)) := rfl
  have hrels : (mockProcessSpecsResponse d).relationships =
      mkRelationships (toLowerStr d) ((extractedClassNames d).map (mkEntity (toLowerStr d))) := rfl
  have hlen : 2 ≤ (mockProcessSpecsResponse d).entities.length := by
    rw [hents, List.length_map]
    exact extractedClassNames_two_le d
  have hall : ∀ e ∈ (mockProcessSpecsResponse d).entities,
      2 ≤ e.attributes.length ∧
      e.attributes.any (fun a => a.name == "id") = true ∧
      e.attributes.any (fun a => a.name == toLowerStr e.name ++ "Name") = true ∧
      1 ≤ e.methods.length ∧
      e.methods.any (fun m => m.name == "get" ++ e.name) = true := by
    intro e he
    rw [hents] at he
    obtain ⟨n, _, rfl⟩ := List.mem_map.mp he
    refine ⟨?_, ?_, ?_, ?_, ?_⟩
    · simp only [mkEntity, entityAttributes, List.length_append,
        List.length_cons, List.length_nil]
      omega
    · simp [mkEntity, entityAttributes]
    · simp [mkEntity, entityAttributes]
    · simp only [mkEntity, entityMethods, List.length_append,
        List.length_cons, List.length_nil]
      omega
    · simp [mkEntity, entityMethods]
  obtain ⟨e0, e1, tl, hsplit⟩ : ∃ e0 e1 tl,
      (mockProcessSpecsResponse d).entities = e0 :: e1 :: tl := by
    rcases hes : (mockProcessSpecsResponse d).entities with _ | ⟨a, _ | ⟨b, t⟩⟩
    · rw [hes] at hlen
      simp only [List.length_nil] at hlen
      omega
    · rw [hes] at hlen
      simp only [List.length_cons, List.length_nil] at hlen
      omega
    · exact ⟨a, b, t, rfl⟩
  obtain ⟨r, rest, hr, hs, ht⟩ :=
    mkRelationships_head (toLowerStr d) e0 e1 tl
  have hrcons : (mockProcessSpecsResponse d).relationships = r :: rest := by
    rw [hrels, ← hents, hsplit, hr]
  constructor
  · simp only [checkUMLValidity, Bool.and_eq_true, decide_eq_true_eq,
      List.all_eq_true]
    refine ⟨⟨hlen, ?_⟩, ?_⟩
    · intro e he
      obtain ⟨ha, _, _, hm, _⟩ := hall e he
      exact ⟨by omega, by omega⟩
    · rw [hrcons]
      simp
  · simp only [claimMinValidity, Bool.and_eq_true, decide_eq_true_eq,
      List.all_eq_true]
    refine ⟨⟨hlen, ?_⟩, ?_⟩
    · intro e he2
      obtain ⟨ha, hid, hname, hm, hget⟩ := hall e he2
      exact ⟨⟨⟨⟨ha, hid⟩, hname⟩, hm⟩, hget⟩
    · rw [hrcons, hsplit]
      simp [hs, ht]

/-- Stage 1 as the claim words it: keep words longer than 3 characters whose
first character is an uppercase letter. -/
def claimStage1Names (d : String) : List String :=
  dedupFirst [] ((splitWords d).filter (fun w =>
    3 < w.length &&
    (match w.toList with
     | c :: _ => c.isUpper
     | [] => false)))

/-- Stage 2 as the claim words it: non-stopword words longer than 3
characters, first letter capitalized, deduplicated, at most 6 kept. -/
def claimStage2Names (d : String) : List String :=
  (dedupFirst [] (((splitWords d).filter (fun w =>
      3 < w.length && !(commonWords.contains (toLowerStr w)))).map capFirst)).take 6

/-- The three-stage cascade exactly as the claim states it (stage 1 keeps
words with an uppercase first character). -/
def claimClassNames (d : String) : List String :=
  let s1 := claimStage1Names d
  if 2 ≤ s1.length then s1
  else
    let s2 := claimStage2Names d
    if 2 ≤ s2.length then s2
    else stage3Names d

/-- Stage 1 as the code actually tests it
(`word[0] === word[0].toUpperCase()`): the first character is unchanged by
uppercasing, which also admits digits and symbols. -/
def amendedStage1Names (d : String) : List String :=
  dedupFirst [] ((splitWords d).filter (fun w =>
    3 < w.length &&
    (match w.toList with
     | c :: _ => c == Char.toUpper c
     | [] => true)))

/-- The cascade with the amended stage 1. -/
def amendedClassNames (d : String) : List String :=
  let s1 := amendedStage1Names d
  if 2 ≤ s1.length then s1
  else
    let s2 := claimStage2Names d
    if 2 ≤ s2.length then s2
    else stage3Names d

/-- C4 counterexample: on the description `2024 desc 1234 word`, the code
keeps the digit words `2024` and `1234` in stage 1 (digits are unchanged by
`toUpperCase`), while the claimed cascade would find no uppercase-initial
words in stage 1 and fall through to stage 2, producing four names. -/
theorem extractedClassNames_counterexample :
    (mockProcessSpecsResponse "2024 desc 1234 word").entities.map Entity.name =
      ["2024", "1234"] ∧
    claimClassNames "2024 desc 1234 word" = ["2024", "Desc", "1234", "Word"] ∧
    (mockProcessSpecsResponse "2024 desc 1234 word").entities.map Entity.name ≠
      claimClassNames "2024 desc 1234 word" := by
  refine ⟨by decide, by decide, by decide⟩

/-- Filtering by length and then by a second predicate is filtering by the
conjunction. -/
theorem filter_len_filter (p : String → Bool) (l : List String) :
    (l.filter (fun w => 3 < w.length)).filter p =
      l.filter (fun w => 3 < w.length && p w) := by
  rw [List.filter_filter]
  exact List.filter_congr (fun a _ => Bool.and_comm (p a) (decide (3 < a.length)))

/-- C4 amended: for every description, the class names of the mock model are
produced by the claimed three-stage cascade, with stage 1 corrected to keep
words whose first character is unchanged by uppercasing (rather than being an
uppercase letter). -/
theorem mockProcessSpecsResponse_classNames (d : String) :
    (mockProcessSpecsResponse d).entities.map Entity.name = amendedClassNames d := by
  have hmap : (mockProcessSpecsResponse d).entities.map Entity.name =
      extractedClassNames d := by
    have hents : (mockProcessSpecsResponse d).entities =
        (extractedClassNames d).map (mkEntity (toLowerStr d)) := rfl
    rw [hents, List.map_map]
    have hid : (Entity.name ∘ mkEntity (toLowerStr d)) = id := funext fun n => rfl
    rw [hid, List.map_id]
  have hstage1 : stage1Names d = amendedStage1Names d := by
    simp only [stage1Names, amendedStage1Names, filter_len_filter]
  have hstage2 : stage2Names d = claimStage2Names d := by
    simp only [stage2Names, claimStage2Names, filter_len_filter]
  rw [hmap]
  simp only [extractedClassNames, amendedClassNames, hstage1, hstage2]

/-! ### Unified submission flow (UMLGenerator.tsx) -/

/-- The replace of the trailing-comma run by the empty string: strip
trailing commas. -/
def dropTrailingCommas (s : String) : String :=
  String.mk (s.toList.reverse.dropWhile (fun c => c == ',') |>.reverse)

/-- The global replace of commas by the empty string: remove every comma. -/
def stripCommas (s : String) : String :=
  String.mk (s.toList.filter (fun c => !(c == ',')))

/-- The word filter of `createMockResponse`:
`word.length > 3 && /^[A-Z]/.test(word)`. -/
def cmrKeepWord (w : String) : Bool :=
  3 < w.length &&
  (match w.toList with
   | c :: _ => 'A' ≤ c && c ≤ 'Z'
   | [] => false)

/-- The candidate entity names of `createMockResponse`: split on whitespace,
filter, keep the first 3, strip trailing commas and capitalize, deduplicate;
then pad with `Entity1`, `Entity2` when fewer than two remain. -/
def cmrNames (d : String) : List String :=
  let p := dedupFirst []
    ((((splitWsRuns d).filter cmrKeepWord).take 3).map
      (fun w => capFirst (dropTrailingCommas w)))
  if p.length < 2 then p ++ ["Entity1", "Entity2"] else p

/-- The fixed entity skeleton of `createMockResponse`. -/
def cmrEntity (n : String) : Entity :=
  ⟨n,
   [⟨"id", "int", .priv⟩, ⟨"name", "string", .pub⟩],
   [⟨"get" ++ n, n, [], .pub⟩,
    ⟨"update" ++ n, "boolean", [⟨"data", n⟩], .pub⟩]⟩

/-- `createMockResponse` of UMLGenerator.tsx (lines 39-86): the local fallback
model used when the processSpecs API call fails. -/
def createMockResponse (d : String) : ProcessSpecsResponse :=
  let entities := ((cmrNames d).take 3).map cmrEntity
  ⟨"This is a mock response for: " ++ d ++
    "\n\nAPI connection appears to be unavailable. Using sample data.",
   entities,
   [⟨nameAt entities 0, nameAt entities 1, .association, some "relates to"⟩]⟩

/-- Relationship arrow of `generateMockUml` (note: reversed arrows
compared with `mockGenerateUMLResponse`). -/
def gmArrow : RelType → String
  | .inheritance => "<|--"
  | .composition => "*--"
  | .aggregation => "o--"
  | .dependency => "<.."
  | .association => "-->"

/-- One class block of `generateMockUml` (comma-cleaning, two-space
indent, no leading indent on the class header). -/
def gmEntityBlock (e : Entity) : String :=
  let afterHeader := "class " ++ stripCommas e.name ++ " \x7b\n"
  let afterAttrs := e.attributes.foldl (fun acc a =>
    acc ++ "  " ++ visSymbol a.visibility ++ a.name ++ " : " ++ a.type ++ "\n")
    afterHeader
  let afterMethods := e.methods.foldl (fun acc m =>
    acc ++ "  " ++ visSymbol m.visibility ++ stripCommas m.name ++ "(" ++
      String.intercalate ", " (m.parameters.map (fun p =>
        p.name ++ ": " ++ stripCommas p.type)) ++
      ") " ++ stripCommas m.returnType ++ "\n") afterAttrs
  afterMethods ++ "\x7d\n"

/-- One relationship line of `generateMockUml`. -/
def gmRelLine (r : Relationship) : String :=
  stripCommas r.source ++ " " ++ gmArrow r.type ++ " " ++ stripCommas r.target ++
    labelSuffix r.label ++ "\n"

/-- `generateMockUml` of UMLGenerator.tsx (lines 109-159): the local
fallback Mermaid generator used when the generateUML API call fails. -/
def generateMockUml (specs : ProcessSpecsResponse) : String :=
  let s1 := specs.entities.foldl (fun acc e => acc ++ gmEntityBlock e) "classDiagram\n"
  specs.relationships.foldl (fun acc r => acc ++ gmRelLine r) s1

/-- The required-word sets of the unified-mode gate
(`REQUIRED_WORD_SETS` in UMLGenerator.tsx). -/
def requiredWordSets : List (List String) :=
  [["attribute"], ["method"], ["relationship"], ["entity", "class"]]

/-- `getMissingWords`: the word sets with no member contained
(case-insensitively) in the description. -/
def getMissingWords (desc : String) : List (List String) :=
  requiredWordSets.filter (fun ws =>
    !(ws.any (fun w => strIncludes (toLowerStr desc) w)))

/-- Result of one run of the unified branch of `handleSubmit`:
the rejection outcomes record the early returns (empty description, missing
required words, failed validity check); `success specs uml mockSpecs mockUml`
records the final state, with the flags telling whether the fallback model
or the fallback generator was substituted after an API failure (each
substitution is accompanied by an error toast in the source). -/
inductive SubmitOutcome where
  | rejectedEmpty : SubmitOutcome
  | rejectedMissingWords : List (List String) → SubmitOutcome
  | rejectedInvalid : SubmitOutcome
  | success : ProcessSpecsResponse → String → Bool → Bool → SubmitOutcome
deriving DecidableEq, Repr

/-- The failed-attempt counter update performed by the run
(`setFailedAttempts`): incremented on the missing-words and validity
rejections, reset on success, untouched on the empty-description rejection. -/
def failedAttemptsAfter (prev : Nat) : SubmitOutcome → Nat
  | .rejectedEmpty => prev
  | .rejectedMissingWords _ => prev + 1
  | .rejectedInvalid => prev + 1
  | .success _ _ _ _ => 0

/-- Whether the run got past the description gate into the API section. -/
def passedGate : SubmitOutcome → Bool
  | .rejectedEmpty => false
  | .rejectedMissingWords _ => false
  | .rejectedInvalid => true
  | .success _ _ _ _ => true

/-- The unified branch of `handleSubmit` (UMLGenerator.tsx lines 161-247),
with the two network calls supplied as oracles: `apiSpecs = none` models a
thrown processSpecs call, `apiUml = none` a thrown generateUML call. -/
def handleSubmitUnified (description : String)
    (apiSpecs : Option ProcessSpecsResponse) (apiUml : Option String) :
    SubmitOutcome :=
  if isBlank description then .rejectedEmpty
  else if 0 < (getMissingWords description).length then
    .rejectedMissingWords (getMissingWords description)
  else
    let specs := apiSpecs.getD (createMockResponse description)
    if !(checkUMLValidity specs) then .rejectedInvalid
    else
      match apiUml with
      | some u => .success specs u apiSpecs.isNone false
      | none => .success specs (generateMockUml specs) apiSpecs.isNone true

/-- The candidate-name list of the fallback model always has at least two
entries (it is padded otherwise). -/
theorem cmrNames_two_le (d : String) : 2 ≤ (cmrNames d).length := by
  simp only [cmrNames]
  split_ifs with h
  · simp only [List.length_append, List.length_cons, List.length_nil]
    omega
  · omega

/-- The fallback model always passes `checkUMLValidity`. -/
theorem checkUMLValidity_createMockResponse (d : String) :
    checkUMLValidity (createMockResponse d) = true := by
  have hents : (createMockResponse d).entities = ((cmrNames d).take 3).map cmrEntity := rfl
  have hlen : 2 ≤ (createMockResponse d).entities.length := by
    rw [hents, List.length_map, List.length_take]
    have := cmrNames_two_le d
    omega
  simp only [checkUMLValidity, Bool.and_eq_true, decide_eq_true_eq,
    List.all_eq_true]
  refine ⟨⟨hlen, ?_⟩, ?_⟩
  · intro e he
    rw [hents] at he
    obtain ⟨n, _, rfl⟩ := List.mem_map.mp he
    exact ⟨by simp [cmrEntity], by simp [cmrEntity]⟩
  · simp [createMockResponse]

/-- C5: in the unified flow past the word gate, a failing processSpecs call
substitutes the locally computed `createMockResponse` model (with the error
toast recorded by the first flag) and the flow still reaches a rendered
diagram; a failing generateUML call substitutes the locally generated
`generateMockUml` of the processed model (second flag); neither failure
aborts the flow. -/
theorem handleSubmit_api_fallbacks (d : String) (r : ProcessSpecsResponse)
    (apiUml : Option String)
    (hb : isBlank d = false) (hm : getMissingWords d = [])
    (hv : checkUMLValidity r = true) :
    handleSubmitUnified d none apiUml =
      .success (createMockResponse d)
        (apiUml.getD (generateMockUml (createMockResponse d)))
        true apiUml.isNone ∧
    handleSubmitUnified d (some r) none =
      .success r (generateMockUml r) false true := by
  have hcv := checkUMLValidity_createMockResponse d
  constructor
  · cases apiUml with
    | none => simp [handleSubmitUnified, hb, hm, hcv]
    | some u => simp [handleSubmitUnified, hb, hm, hcv]
  · simp [handleSubmitUnified, hb, hm, hv]

/-- Witness for `handleSubmit_api_fallbacks` at a concrete description and a
concrete valid processed model, with both API calls failing. -/
theorem handleSubmit_api_fallbacks_witness :
    isBlank "A Customer entity class with attribute, method and relationship." = false ∧
    getMissingWords "A Customer entity class with attribute, method and relationship." = [] ∧
    checkUMLValidity ⟨"", [cmrEntity "A", cmrEntity "B"],
      [⟨"A", "B", .association, none⟩]⟩ = true ∧
    (handleSubmitUnified "A Customer entity class with attribute, method and relationship."
        none none =
      .success
        (createMockResponse
          "A Customer entity class with attribute, method and relationship.")
        (generateMockUml
          (createMockResponse
            "A Customer entity class with attribute, method and relationship."))
        true true ∧
     handleSubmitUnified "A Customer entity class with attribute, method and relationship."
        (some ⟨"", [cmrEntity "A", cmrEntity "B"], [⟨"A", "B", .association, none⟩]⟩)
        none =
      .success ⟨"", [cmrEntity "A", cmrEntity "B"], [⟨"A", "B", .association, none⟩]⟩
        (generateMockUml ⟨"", [cmrEntity "A", cmrEntity "B"],
          [⟨"A", "B", .association, none⟩]⟩) false true) := by
  refine ⟨by decide, by decide, by decide, ?_⟩
  exact handleSubmit_api_fallbacks
    "A Customer entity class with attribute, method and relationship."
    ⟨"", [cmrEntity "A", cmrEntity "B"], [⟨"A", "B", .association, none⟩]⟩
    none (by decide) (by decide) (by decide)

/-- C9 counterexample: the empty description lacks every required word, yet
the run is rejected by the earlier blank-description check, which shows a
different toast and does not increment the failed-attempt counter. -/
theorem missingWords_gate_counterexample :
    handleSubmitUnified "" none none = .rejectedEmpty ∧
    getMissingWords "" ≠ [] ∧
    failedAttemptsAfter 0 (handleSubmitUnified "" none none) = 0 := by
  refine ⟨by decide, by decide, by decide⟩

/-- C9 amended: for every non-blank description, the run proceeds past the
word gate exactly when every required word set is matched; when some set is
missing, the run is rejected with the missing-words toast, the failed-attempt
counter is incremented, and no API oracle is consulted (the outcome does not
depend on them) and no model or diagram is produced. -/
theorem handleSubmit_word_gate (d : String) (a : Option ProcessSpecsResponse)
    (u : Option String) (hb : isBlank d = false) :
    (passedGate (handleSubmitUnified d a u) = true ↔ getMissingWords d = []) ∧
    (getMissingWords d ≠ [] →
      handleSubmitUnified d a u = .rejectedMissingWords (getMissingWords d) ∧
      (∀ prev, failedAttemptsAfter prev (handleSubmitUnified d a u) = prev + 1) ∧
      handleSubmitUnified d a u = handleSubmitUnified d none none) := by
  have hreject : ∀ (a2 : Option ProcessSpecsResponse) (u2 : Option String),
      getMissingWords d ≠ [] →
      handleSubmitUnified d a2 u2 = .rejectedMissingWords (getMissingWords d) := by
    intro a2 u2 hne
    simp only [handleSubmitUnified, hb, Bool.false_eq_true, if_false]
    rw [if_pos (List.length_pos.mpr hne)]
  constructor
  · constructor
    · intro hp
      by_contra hne
      rw [hreject a u hne] at hp
      simp [passedGate] at hp
    · intro hm
      simp only [handleSubmitUnified, hb, hm, Bool.false_eq_true, if_false,
        List.length_nil, lt_irrefl, ite_false]
      split_ifs with hv
      · rfl
      · cases u <;> rfl
  · intro hne
    refine ⟨hreject a u hne, ?_, ?_⟩
    · intro prev
      rw [hreject a u hne]
      rfl
    · rw [hreject a u hne, hreject none none hne]

/-- Witness for `handleSubmit_word_gate` at the concrete description `cat`,
which is non-blank and matches none of the required word sets. -/
theorem handleSubmit_word_gate_witness :
    isBlank "cat" = false ∧
    ((passedGate (handleSubmitUnified "cat" none none) = true ↔
        getMissingWords "cat" = []) ∧
     (getMissingWords "cat" ≠ [] →
        handleSubmitUnified "cat" none none =
          .rejectedMissingWords (getMissingWords "cat") ∧
        (∀ prev, failedAttemptsAfter prev (handleSubmitUnified "cat" none none) =
          prev + 1) ∧
        handleSubmitUnified "cat" none none = handleSubmitUnified "cat" none none)) := by
  exact ⟨by decide, handleSubmit_word_gate "cat" none none (by decide)⟩

/-! ### The processingStep wizard (C8) -/

/-- The union type of the wizard step strings (idle, processing,
generating, saving) of the
`processingStep` state. -/
inductive Step where
  | idle : Step
  | processing : Step
  | generating : Step
  | saving : Step
deriving DecidableEq, Repr

/-- Position of a step in the wizard order. -/
def stepRank : Step → Nat
  | .idle => 0
  | .processing => 1
  | .generating => 2
  | .saving => 3

/-- The input-mode toggle of UMLGenerator. -/
inductive InputMode where
  | unified : InputMode
  | separate : InputMode
deriving DecidableEq, Repr

/-- The sequence of values assigned to `processingStep` during one run of
`handleSubmit`, in order.  In unified mode the two early rejections return
before the try block (no assignment); the validity rejection returns inside
try, so the finally clause still resets to idle.  In separate mode the three
validation rejections happen inside try (finally resets to idle), and the
successful path skips the processing step. -/
def processingTrace (mode : InputMode) (description : String)
    (apiSpecs : Option ProcessSpecsResponse)
    (manualEntities : List Entity) (manualRels : List Relationship) :
    List Step :=
  match mode with
  | .unified =>
    if isBlank description then []
    else if 0 < (getMissingWords description).length then []
    else
      let specs := apiSpecs.getD (createMockResponse description)
      if !(checkUMLValidity specs) then [.processing, .idle]
      else [.processing, .generating, .saving, .idle]
  | .separate =>
    if manualEntities.length < 2 then [.idle]
    else if !(manualEntities.all (fun e =>
        decide (0 < e.attributes.length) && decide (0 < e.methods.length))) then [.idle]
    else if manualRels.length < 1 then [.idle]
    else [.generating, .saving, .idle]

/-- Forward motion allowed by the claim: the next value either is the final
reset to idle or has strictly higher rank. -/
def forwardOk (a b : Step) : Bool := b == Step.idle || decide (stepRank a < stepRank b)

/-- All consecutive pairs of the list satisfy `forwardOk`. -/
def chainOk : List Step → Bool
  | [] => true
  | [_] => true
  | a :: b :: rest => forwardOk a b && chainOk (b :: rest)

/-- C8: starting from the idle state, every run of `handleSubmit` moves
`processingStep` only forward in the order idle, processing, generating,
saving (possibly skipping steps; separate mode skips processing), except for
the final reset to idle; the value after the run is always idle; and idle is
never assigned before the final assignment of the run. -/
theorem processingTrace_linear_wizard (mode : InputMode) (d : String)
    (apiSpecs : Option ProcessSpecsResponse)
    (manualEntities : List Entity) (manualRels : List Relationship) :
    chainOk (Step.idle :: processingTrace mode d apiSpecs manualEntities manualRels) = true ∧
    (Step.idle :: processingTrace mode d apiSpecs manualEntities manualRels).getLast? =
      some Step.idle ∧
    (processingTrace mode d apiSpecs manualEntities manualRels).dropLast.all
      (fun s => s != Step.idle) = true := by
  cases mode with
  | unified =>
    simp only [processingTrace]
    split_ifs with h1 h2 h3
    · exact ⟨by decide, by decide, by decide⟩
    · exact ⟨by decide, by decide, by decide⟩
    · exact ⟨by decide, by decide, by decide⟩
    · exact ⟨by decide, by decide, by decide⟩
  | separate =>
    simp only [processingTrace]
    split_ifs with h1 h2 h3
    · exact ⟨by decide, by decide, by decide⟩
    · exact ⟨by decide, by decide, by decide⟩
    · exact ⟨by decide, by decide, by decide⟩
    · exact ⟨by decide, by decide, by decide⟩

/-! ### Mock persistence (mockSaveUMLDiagram, mockGetUMLHistory) -/

/-- `mockSaveUMLDiagram` of src/services/mockData.ts: build the new diagram
from the request, the current timestamp `nowMs` (`Date.now()`) and the current
ISO time `nowIso` (`new Date().toISOString()`), push it onto the stored
history, and answer with the new id and success.  The default title uses the
`request.title || ...` truthiness of the source. -/
def mockSaveUMLDiagram (history : List UMLDiagram) (req : SaveUMLRequest)
    (nowMs : Nat) (nowIso : String) : List UMLDiagram × SaveUMLResponse :=
  let newDiagram : UMLDiagram :=
    ⟨toString nowMs,
     (if req.title = "" then "UML Diagram " ++ toString (history.length + 1)
      else req.title),
     req.description, req.umlText, req.entities, req.relationships, nowIso⟩
  (history ++ [newDiagram], ⟨toString nowMs, true⟩)

/-- The comparator of `mockGetUMLHistory`: newest first, with the parsing of
`createdAt` strings into times (`new Date(s).getTime()`) supplied as the
oracle `dateVal`. -/
def newestFirst (dateVal : String → Nat) (a b : UMLDiagram) : Prop :=
  dateVal b.createdAt ≤ dateVal a.createdAt

instance (dateVal : String → Nat) : DecidableRel (newestFirst dateVal) :=
  fun a b => Nat.decLe (dateVal b.createdAt) (dateVal a.createdAt)

instance (dateVal : String → Nat) : IsTotal UMLDiagram (newestFirst dateVal) :=
  ⟨fun a b => Nat.le_total (dateVal b.createdAt) (dateVal a.createdAt)⟩

instance (dateVal : String → Nat) : IsTrans UMLDiagram (newestFirst dateVal) :=
  ⟨fun _ _ _ hab hbc => Nat.le_trans hbc hab⟩

/-- `mockGetUMLHistory` of src/services/mockData.ts: the stored history sorted
by descending `createdAt` time (`history.sort((a, b) => getTime(b) - getTime(a))`). -/
def mockGetUMLHistory (dateVal : String → Nat) (history : List UMLDiagram) :
    List UMLDiagram :=
  List.insertionSort (newestFirst dateVal) history

/-- C7: saving appends to the stored history exactly one diagram whose id is
the current timestamp rendered as a string and whose creation time is the
current time, copies the request payload, and returns that id with success;
and the history endpoint returns a permutation of the stored diagrams sorted
newest first by `createdAt`. -/
theorem mockSave_and_history_spec (history : List UMLDiagram)
    (req : SaveUMLRequest) (nowMs : Nat) (nowIso : String)
    (dateVal : String → Nat) :
    (∃ d : UMLDiagram,
      (mockSaveUMLDiagram history req nowMs nowIso).1 = history ++ [d] ∧
      d.id = toString nowMs ∧ d.createdAt = nowIso ∧
      d.description = req.description ∧ d.umlText = req.umlText ∧
      d.entities = req.entities ∧ d.relationships = req.relationships) ∧
    (mockSaveUMLDiagram history req nowMs nowIso).2.id = toString nowMs ∧
    (mockSaveUMLDiagram history req nowMs nowIso).2.success = true ∧
    (mockGetUMLHistory dateVal history).Perm history ∧
    List.Sorted (newestFirst dateVal) (mockGetUMLHistory dateVal history) := by
  refine ⟨⟨_, rfl, rfl, rfl, rfl, rfl, rfl, rfl⟩, rfl, rfl, ?_, ?_⟩
  · exact List.perm_insertionSort (newestFirst dateVal) history
  · exact List.sorted_insertionSort (newestFirst dateVal) history

/-! ### HTTP client endpoint tables (C6) -/

/-- One fetch call of a client module: HTTP method, path relative to the API
base URL, and the field list of the JSON body (empty for GET requests). -/
structure EndpointCall where
  httpMethod : String
  path : String
  bodyFields : List String
deriving DecidableEq, Repr

/-- The endpoint table the claim describes: exactly `/process-specs`,
`/generate-uml`, `/save-uml` (POST) and `/uml-history` (GET), with bodies
matching the request interfaces. -/
def claimedEndpoints : List EndpointCall :=
  [⟨"POST", "/process-specs", ["description"]⟩,
   ⟨"POST", "/generate-uml", ["entities", "relationships"]⟩,
   ⟨"POST", "/save-uml",
     ["title", "description", "umlSyntax", "entities", "relationships"]⟩,
   ⟨"GET", "/uml-history", []⟩]

/-- The fetch calls of the client variant src/unnamed/part_002
(`processSpecs`, `generateUML`, `saveUMLDiagram`, `getUMLHistory`). -/
def part002Endpoints : List EndpointCall :=
  [⟨"POST", "/process-specs", ["description"]⟩,
   ⟨"POST", "/generate-uml", ["entities", "relationships"]⟩,
   ⟨"POST", "/save-uml",
     ["title", "description", "umlSyntax", "entities", "relationships"]⟩,
   ⟨"GET", "/uml-history", []⟩]

/-- The fetch calls of the client src/src/services/api.ts (`processSpecs`,
`generateUML`, `saveDiagram`, `getDiagrams`, `getDiagram`), whose GET paths
carry the user id and diagram id. -/
def apiTsEndpoints (userId : String) (diagramId : Nat) : List EndpointCall :=
  [⟨"POST", "/process-specs", ["description", "userId"]⟩,
   ⟨"POST", "/generate-uml", ["entities", "relationships", "userId"]⟩,
   ⟨"POST", "/save-diagram",
     ["title", "description", "userId", "entities", "relationships", "umlSyntax"]⟩,
   ⟨"GET", "/diagrams/" ++ userId, []⟩,
   ⟨"GET", "/diagram/" ++ toString diagramId, []⟩]

/-- C6 counterexample: the api.ts client does not use the claimed endpoint
set: it saves to `/save-diagram`, not `/save-uml`, and has no `/uml-history`
route, so the HTTP client layer does not use exactly the four claimed
endpoints. -/
theorem apiTs_endpoints_counterexample :
    (apiTsEndpoints "u1" 7).map EndpointCall.path =
      ["/process-specs", "/generate-uml", "/save-diagram", "/diagrams/u1",
       "/diagram/7"] ∧
    ("/save-uml" ∉ (apiTsEndpoints "u1" 7).map EndpointCall.path) ∧
    ("/uml-history" ∉ (apiTsEndpoints "u1" 7).map EndpointCall.path) ∧
    apiTsEndpoints "u1" 7 ≠ claimedEndpoints := by
  refine ⟨by decide, by decide, by decide, by decide⟩

/-- C6 amended: the repository has two HTTP client variants; the
src/unnamed/part_002 variant exchanges the model over exactly the four
claimed endpoints with the claimed bodies, while the src/src/services/api.ts
variant instead posts saves to `/save-diagram` (bodies also carrying
`userId`) and reads history via `/diagrams/USERID` and `/diagram/ID`. -/
theorem client_endpoint_tables (userId : String) (diagramId : Nat) :
    part002Endpoints = claimedEndpoints ∧
    apiTsEndpoints userId diagramId =
      [⟨"POST", "/process-specs", ["description", "userId"]⟩,
       ⟨"POST", "/generate-uml", ["entities", "relationships", "userId"]⟩,
       ⟨"POST", "/save-diagram",
         ["title", "description", "userId", "entities", "relationships",
          "umlSyntax"]⟩,
       ⟨"GET", "/diagrams/" ++ userId, []⟩,
       ⟨"GET", "/diagram/" ++ toString diagramId, []⟩] ∧
    (apiTsEndpoints userId diagramId).map EndpointCall.httpMethod =
      ["POST", "POST", "POST", "GET", "GET"] := by
  exact ⟨rfl, rfl, rfl⟩
